import Mathlib

/-!
Shallow embedding of `src/nodes/WebhookPathChoice.node.ts`.

The node has two run-time entry points and one build-time helper:
- `configuredOutputs` (lines 14–21): maps the configured action list to one
  output-lane descriptor per action, with a positional fallback display name.
- `execute` (lines 110–144): builds the approval request body and suspends.
  The request-body construction (lines 119–127) is embedded as
  `buildRequestBody`.
- `webhook` (lines 147–174): dispatches one inbound callback body to the
  output lane whose configured action name equals the body's `action` field.

JavaScript conventions embedded explicitly:
- `findIndex` returning `-1` is modelled by `List.findIdx?` returning `none`;
- the falsiness check `!action` on a string-or-absent field is modelled on
  `Option String`: it holds for `none` and for `some ""`;
- `action.name || fallback` selects the fallback exactly when `name` is the
  empty string.
-/

namespace WebhookPathChoice

/-- One element of the `actions.action` configuration list. The source reads it
as `Record<string, any>` but only ever uses `name`; the two Boolean fields
appear in the node's default configuration (lines 76–86). -/
structure ActionRecord where
  name : String
  action_is_destructive : Bool := false
  gather_custom_feedback_response : Bool := false
deriving DecidableEq, Repr

/-- The `NodeConnectionType.Main` constant from `n8n-workflow`. -/
def NodeConnectionType.Main : String := "main"

/-- One output-lane descriptor as produced by `configuredOutputs`. -/
structure OutputDescription where
  type : String
  displayName : String
deriving DecidableEq, Repr

/-- The slice of `INodeParameters` that `configuredOutputs` reads:
`(parameters.actions as IDataObject)?.action` (line 16). `none` models an
absent `actions` parameter, covered by the `?? []` default. -/
structure INodeParameters where
  actions : Option (List ActionRecord)
deriving DecidableEq, Repr

/-- Lines 14–21: one output per configured action, `displayName` falling back
to `Action {index}` when the configured name is empty (JS falsiness of a
string is emptiness). -/
def configuredOutputs (parameters : INodeParameters) : List OutputDescription :=
  let actionList := parameters.actions.getD []
  actionList.mapIdx fun index action =>
    { type := NodeConnectionType.Main
      displayName :=
        if action.name = "" then "Action " ++ toString index else action.name }

/-- A record holding only the `name` field, as built by
`actions.map((a) => ({ name: a.name }))` on line 123. -/
structure ActionNameOnly where
  name : String
deriving DecidableEq, Repr

/-- The constant on line 126 (`SYSTEM_WORKFLOW_UUID`). -/
def SYSTEM_WORKFLOW_UUID : String := "00000000-0000-4000-c025-000000000000"

/-- The request body constructed by `execute` (lines 119–127). -/
structure ApprovalRequest where
  subject : String
  message : String
  webhook_url : String
  actions : List ActionNameOnly
  account_uuid : String
deriving DecidableEq, Repr

/-- Lines 119–127 of `execute`: the approval-request body. `resumeUrl` is the
value of `$execution?.resumeUrl` and `nodeId` the node's stable identifier. -/
def buildRequestBody (subject message resumeUrl nodeId : String)
    (actions : List ActionRecord) : ApprovalRequest :=
  { subject := subject
    message := message
    webhook_url := resumeUrl ++ "/" ++ nodeId
    actions := actions.map fun a => { name := a.name }
    account_uuid := SYSTEM_WORKFLOW_UUID }

/-- The inbound callback body. `action` is `none` when the JSON body has no
`action` key; `extra` carries the arbitrary remaining fields. -/
structure CallbackBody where
  action : Option String
  extra : List (String × String) := []
deriving DecidableEq, Repr

/-- One n8n execution-data item: `{ json, pairedItem }`. `pairedItem = some i`
models `{ item: i }`. -/
structure OutputItem where
  json : CallbackBody
  pairedItem : Option Nat := none
deriving DecidableEq, Repr

/-- The two `NodeOperationError`s the `webhook` method can throw. -/
inductive WebhookError where
  | missingAction : WebhookError
  | unknownAction (value : String) : WebhookError
deriving DecidableEq, Repr

/-- The message attached to each `NodeOperationError` (lines 154 and 159). -/
def errorMessage : WebhookError → String
  | .missingAction => "No \"action\" received."
  | .unknownAction value => "Unknown action: " ++ value

/-- Model of `this.helpers.returnJsonArray(body)` for a single JSON object:
one item wrapping the body, with no `pairedItem` yet. -/
def returnJsonArray (body : CallbackBody) : List OutputItem :=
  [{ json := body }]

/-- Line 163: `returnArray[index][0].pairedItem = { item: 0 }` — mutate the
first element of a record set to carry provenance for input item 0. -/
def setPairedItemHead (items : List OutputItem) : List OutputItem :=
  match items with
  | [] => []
  | x :: xs => { x with pairedItem := some 0 } :: xs

/-- The value returned from the `webhook` method (lines 170–173). -/
structure WebhookResponseData where
  webhookResponse : String
  workflowData : List (List OutputItem)
deriving DecidableEq, Repr

/-- Lines 147–174: the `webhook` method. `allActions` is the re-read
`actions.action` parameter, `body` is `this.getBodyData()`. A thrown
`NodeOperationError` is modelled as `Except.error`. -/
def webhook (allActions : List ActionRecord) (body : CallbackBody) :
    Except WebhookError WebhookResponseData :=
  match body.action with
  | none => .error .missingAction
  | some action =>
    if action = "" then .error .missingAction
    else
      match allActions.findIdx? (fun a => a.name == action) with
      | none => .error (.unknownAction action)
      | some index =>
        let returnArray := allActions.map fun _ => ([] : List OutputItem)
        .ok { webhookResponse := "OK"
              workflowData :=
                returnArray.set index (setPairedItemHead (returnJsonArray body)) }

/-! ### Helper lemmas -/

/-- Completeness of `findIdx?` as a model of `Array.prototype.findIndex`:
the first index satisfying the predicate is found. -/
theorem findIdx?_of_first {α : Type} (p : α → Bool) (l : List α) (k : Nat)
    (hk : k < l.length) (hpk : p (l.get ⟨k, hk⟩) = true)
    (hmin : ∀ j (hj : j < k), p (l.get ⟨j, Nat.lt_trans hj hk⟩) = false) :
    l.findIdx? p = some k := by
  induction l generalizing k with
  | nil => simp at hk
  | cons x xs ih =>
    cases k with
    | zero =>
      simp only [List.get] at hpk
      simp [List.findIdx?_cons, hpk]
    | succ k =>
      have hx : p x = false := hmin 0 (Nat.succ_pos k)
      have hk' : k < xs.length := Nat.lt_of_succ_lt_succ hk
      have hpk' : p (xs.get ⟨k, hk'⟩) = true := hpk
      have hmin' : ∀ j (hj : j < k), p (xs.get ⟨j, Nat.lt_trans hj hk'⟩) = false := by
        intro j hj
        exact hmin (j + 1) (Nat.succ_lt_succ hj)
      simp [List.findIdx?_cons, hx, List.findIdx?_succ, ih k hk' hpk' hmin']

/-- Soundness of `findIdx?`: a found index is in bounds, satisfies the
predicate, and no smaller index does. -/
theorem findIdx?_some_spec {α : Type} (p : α → Bool) (l : List α) (k : Nat)
    (h : l.findIdx? p = some k) :
    ∃ hk : k < l.length, p (l.get ⟨k, hk⟩) = true ∧
      ∀ j (hj : j < k), p (l.get ⟨j, Nat.lt_trans hj hk⟩) = false := by
  induction l generalizing k with
  | nil => simp [List.findIdx?] at h
  | cons x xs ih =>
    rw [List.findIdx?_cons] at h
    by_cases hx : p x = true
    · simp only [hx, if_true] at h
      obtain rfl : k = 0 := by simpa using h.symm
      exact ⟨Nat.succ_pos _, hx, fun j hj => absurd hj (Nat.not_lt_zero j)⟩
    · simp only [hx, if_false, List.findIdx?_succ] at h
      obtain ⟨k', hk', rfl⟩ := Option.map_eq_some.mp h
      obtain ⟨hb, hp, hfirst⟩ := ih k' hk'
      refine ⟨Nat.succ_lt_succ hb, hp, ?_⟩
      intro j hj
      cases j with
      | zero => simpa using hx
      | succ j => exact hfirst j (Nat.lt_of_succ_lt_succ hj)

/-- Success characterization of `webhook`: it returns `ok` exactly when the
body carries a non-empty action matched by `findIdx?`, and the workflow data
is one empty record set per configured action with the matched slot replaced
by the singleton tagged record set. -/
theorem webhook_eq_ok_iff (allActions : List ActionRecord) (body : CallbackBody)
    (resp : WebhookResponseData) :
    webhook allActions body = .ok resp ↔
      ∃ a k, body.action = some a ∧ a ≠ "" ∧
        allActions.findIdx? (fun d => d.name == a) = some k ∧
        resp = { webhookResponse := "OK"
                 workflowData :=
                   (allActions.map fun _ => ([] : List OutputItem)).set k
                     [{ json := body, pairedItem := some 0 }] } := by
  unfold webhook
  cases hact : body.action with
  | none => simp
  | some a =>
    by_cases ha : a = ""
    · subst ha; simp
    · simp only [ha, if_false]
      cases hidx : allActions.findIdx? (fun d => d.name == a) with
      | none => simp [hidx, ha]
      | some k =>
        constructor
        · intro h
          refine ⟨a, k, rfl, ha, hidx, ?_⟩
          simpa [returnJsonArray, setPairedItemHead] using h.symm
        · rintro ⟨a', k', ha', hne', hidx', rfl⟩
          obtain rfl : a = a' := by simpa using ha'
          rw [hidx] at hidx'
          obtain rfl : k = k' := by simpa using hidx'
          simp [returnJsonArray, setPairedItemHead]

/-- The matched slot of the dispatch result holds the tagged singleton. -/
theorem workflowData_matched (allActions : List ActionRecord) (v : List OutputItem)
    (k : Nat) (hk : k < allActions.length) :
    ((allActions.map fun _ => ([] : List OutputItem)).set k v).getD k [] = v := by
  have hlen : k < ((allActions.map fun _ => ([] : List OutputItem)).set k v).length := by
    simpa using hk
  rw [List.getD_eq_getElem _ _ hlen, List.getElem_set_self]

/-- Every other slot of the dispatch result is the empty record set. -/
theorem workflowData_other (allActions : List ActionRecord) (v : List OutputItem)
    (k j : Nat) (hj : j < allActions.length) (hne : j ≠ k) :
    ((allActions.map fun _ => ([] : List OutputItem)).set k v).getD j [] = [] := by
  have hlen : j < ((allActions.map fun _ => ([] : List OutputItem)).set k v).length := by
    simpa using hj
  rw [List.getD_eq_getElem _ _ hlen, List.getElem_set_ne (fun h => hne h.symm),
    List.getElem_map]

/-! ### Claim theorems -/

/-- Counterexample to claim C1 as stated: with configuration `[{name: ""}]`
the callback `{action: ""}` carries an action field equal to the name of the
lane at index 0, and no earlier lane exists, yet `webhook` produces no
dispatch result — the falsiness check on line 153 rejects the empty string
with the missing-action error. -/
theorem dispatch_matched_lane_counterexample :
    (([{ name := "" }] : List ActionRecord).get ⟨0, by decide⟩).name = "" ∧
    CallbackBody.action { action := some "" } = some "" ∧
    webhook [{ name := "" }] { action := some "" } = .error .missingAction :=
  ⟨rfl, rfl, rfl⟩

/-- Amended claim C1: for every configured action list and every callback
body whose action field is present and non-empty and equals the name of the
lane at index `k`, with no earlier lane sharing that name, `webhook` succeeds
with a result of length equal to the number of configured actions, whose
slot `k` is the singleton record set wrapping the body tagged with
provenance for input item 0, and whose every other slot is empty. -/
theorem dispatch_routes_to_matched_lane (allActions : List ActionRecord)
    (body : CallbackBody) (a : String) (k : Nat)
    (hact : body.action = some a) (hne : a ≠ "") (hk : k < allActions.length)
    (hname : (allActions.get ⟨k, hk⟩).name = a)
    (hfirst : ∀ j (hj : j < k), (allActions.get ⟨j, Nat.lt_trans hj hk⟩).name ≠ a) :
    ∃ resp, webhook allActions body = .ok resp ∧
      resp.workflowData.length = allActions.length ∧
      resp.workflowData.getD k [] = [{ json := body, pairedItem := some 0 }] ∧
      ∀ j, j < allActions.length → j ≠ k → resp.workflowData.getD j [] = [] := by
  have hidx : allActions.findIdx? (fun d => d.name == a) = some k := by
    refine findIdx?_of_first _ _ _ hk ?_ ?_
    · simp only [beq_iff_eq]
      exact hname
    · intro j hj
      simp only [beq_eq_false_iff_ne, ne_eq]
      exact hfirst j hj
  refine ⟨_, (webhook_eq_ok_iff allActions body _).mpr ⟨a, k, hact, hne, hidx, rfl⟩,
    ?_, ?_, ?_⟩
  · simp
  · exact workflowData_matched allActions _ k hk
  · intro j hj hjk
    exact workflowData_other allActions _ k j hj hjk

/-- Witness for C1 at the spec's concrete scenario: actions
`[Approve, Decline]`, callback `{action: "Decline", note: "too risky"}`
matched at index 1. -/
theorem dispatch_routes_to_matched_lane_witness :
    ∃ resp,
      webhook [{ name := "Approve" }, { name := "Decline" }]
          { action := some "Decline", extra := [("note", "too risky")] } = .ok resp ∧
      resp.workflowData.length = 2 ∧
      resp.workflowData.getD 1 [] =
        [{ json := { action := some "Decline", extra := [("note", "too risky")] }
           pairedItem := some 0 }] ∧
      ∀ j, j < 2 → j ≠ 1 → resp.workflowData.getD j [] = [] :=
  dispatch_routes_to_matched_lane
    [{ name := "Approve" }, { name := "Decline" }]
    { action := some "Decline", extra := [("note", "too risky")] }
    "Decline" 1 rfl (by decide) (by decide) (by decide)
    (by
      intro j hj
      have h0 : j = 0 := Nat.lt_one_iff.mp hj
      subst h0
      simp)

/-- Counterexample to claim C2: with configuration `[A, B]` and callback
action `B`, the matched record lands in slot 1, while slot 0 is empty — the
source does not write into a fixed first position. -/
theorem dispatch_slot_zero_counterexample :
    webhook [{ name := "A" }, { name := "B" }] { action := some "B" } =
      .ok { webhookResponse := "OK"
            workflowData :=
              [[], [{ json := { action := some "B" }, pairedItem := some 0 }]] } ∧
    ([[], [{ json := { action := some "B" }, pairedItem := some 0 }]] :
        List (List OutputItem)).getD 0 [] = [] ∧
    ([[], [{ json := { action := some "B" }, pairedItem := some 0 }]] :
        List (List OutputItem)).getD 1 [] ≠ [] := by
  refine ⟨rfl, rfl, ?_⟩
  decide

/-- Amended claim C2: the dispatch logic writes the matched record into the
slot at the matched lane's resolved index — not a fixed first position — so
the lane at any index receives live data when its action is the first match,
and slot 0 stays empty whenever the resolved index is non-zero. -/
theorem dispatch_writes_at_resolved_index (allActions : List ActionRecord)
    (body : CallbackBody) (a : String) (k : Nat)
    (hact : body.action = some a) (hne : a ≠ "") (hk : k < allActions.length)
    (hname : (allActions.get ⟨k, hk⟩).name = a)
    (hfirst : ∀ j (hj : j < k), (allActions.get ⟨j, Nat.lt_trans hj hk⟩).name ≠ a) :
    ∃ resp, webhook allActions body = .ok resp ∧
      resp.workflowData.getD k [] ≠ [] ∧
      (k ≠ 0 → resp.workflowData.getD 0 [] = []) := by
  have hidx : allActions.findIdx? (fun d => d.name == a) = some k := by
    refine findIdx?_of_first _ _ _ hk ?_ ?_
    · simp only [beq_iff_eq]
      exact hname
    · intro j hj
      simp only [beq_eq_false_iff_ne, ne_eq]
      exact hfirst j hj
  refine ⟨_, (webhook_eq_ok_iff allActions body _).mpr ⟨a, k, hact, hne, hidx, rfl⟩,
    ?_, ?_⟩
  · rw [workflowData_matched allActions _ k hk]
    simp
  · intro hk0
    exact workflowData_other allActions _ k 0 (Nat.lt_of_le_of_lt (Nat.zero_le k) hk)
      (fun h => hk0 h.symm)

/-- Witness for the amended C2 at configuration `[A, B]`, callback `B`:
the live record is in slot 1 and slot 0 is empty. -/
theorem dispatch_writes_at_resolved_index_witness :
    ∃ resp,
      webhook [{ name := "A" }, { name := "B" }] { action := some "B" } = .ok resp ∧
      resp.workflowData.getD 1 [] ≠ [] ∧
      (1 ≠ 0 → resp.workflowData.getD 0 [] = []) :=
  dispatch_writes_at_resolved_index [{ name := "A" }, { name := "B" }]
    { action := some "B" } "B" 1 rfl (by decide) (by decide) (by decide)
    (by
      intro j hj
      have h0 : j = 0 := Nat.lt_one_iff.mp hj
      subst h0
      simp)

/-- Counterexample to claim C3 as stated: with an empty configured action
list and a callback whose `action` field is present but holds the empty
string, the dispatch fails with the missing-action error, not the
unknown-action error — the falsiness check on line 153 fires first. -/
theorem unknown_action_empty_string_counterexample :
    webhook [] { action := some "" } = .error .missingAction ∧
    webhook [] { action := some "" } ≠ .error (.unknownAction "") := by
  refine ⟨rfl, fun h => ?_⟩
  rw [show webhook [] { action := some "" } = .error .missingAction from rfl] at h
  exact WebhookError.noConfusion (Except.error.inj h)

/-- Amended claim C3: for every callback body whose `action` field is present
and non-empty and equals no configured action name — in particular every such
callback when the configured action list is empty — `webhook` fails with the
unknown-action error carrying the offending value, whose message names it,
and no dispatch result is produced. -/
theorem unknown_action_error (allActions : List ActionRecord)
    (body : CallbackBody) (a : String)
    (hact : body.action = some a) (hne : a ≠ "")
    (hnomatch : ∀ d ∈ allActions, d.name ≠ a) :
    webhook allActions body = .error (.unknownAction a) ∧
    errorMessage (.unknownAction a) = "Unknown action: " ++ a := by
  have hidx : allActions.findIdx? (fun d => d.name == a) = none := by
    rw [List.findIdx?_eq_none_iff]
    intro d hd
    simp only [beq_eq_false_iff_ne, ne_eq]
    exact hnomatch d hd
  refine ⟨?_, rfl⟩
  unfold webhook
  rw [hact]
  simp [hne, hidx]

/-- Witness for the amended C3: configuration `[A]`, callback action `B`. -/
theorem unknown_action_error_witness :
    webhook [{ name := "A" }] { action := some "B" } =
      .error (.unknownAction "B") ∧
    errorMessage (.unknownAction "B") = "Unknown action: " ++ "B" :=
  unknown_action_error [{ name := "A" }] { action := some "B" } "B" rfl
    (by decide)
    (by
      intro d hd
      simp only [List.mem_singleton] at hd
      subst hd
      simp)

/-- Claim C4: for every callback body lacking the `action` field, `webhook`
fails with the missing-action error, before any dispatch result is
constructed. -/
theorem missing_action_error (allActions : List ActionRecord)
    (body : CallbackBody) (h : body.action = none) :
    webhook allActions body = .error .missingAction := by
  unfold webhook
  rw [h]

/-- Witness for C4 at the spec's concrete scenario: callback
`{note: "oops"}` with no `action` field. -/
theorem missing_action_error_witness :
    CallbackBody.action { action := none, extra := [("note", "oops")] } = none ∧
    webhook [{ name := "Approve" }, { name := "Decline" }]
        { action := none, extra := [("note", "oops")] } =
      .error .missingAction :=
  ⟨rfl, missing_action_error _ _ rfl⟩

/-- Claim C5: dispatch resolves duplicates by first match in declaration
order: whenever `webhook` succeeds and the slot at index `i` carries records,
the callback's action equals the name configured at `i` and no smaller index
carries that name. -/
theorem dispatch_first_match_policy (allActions : List ActionRecord)
    (body : CallbackBody) (resp : WebhookResponseData) (i : Nat)
    (hi : i < allActions.length)
    (hok : webhook allActions body = .ok resp)
    (hlive : resp.workflowData.getD i [] ≠ []) :
    body.action = some ((allActions.get ⟨i, hi⟩).name) ∧
    ∀ j (hj : j < i),
      (allActions.get ⟨j, Nat.lt_trans hj hi⟩).name ≠
        (allActions.get ⟨i, hi⟩).name := by
  obtain ⟨a, k, hact, hne, hidx, rfl⟩ := (webhook_eq_ok_iff allActions body resp).mp hok
  obtain ⟨hk, hp, hfirst⟩ := findIdx?_some_spec _ _ _ hidx
  have hik : i = k := by
    by_contra hik
    exact hlive (workflowData_other allActions _ k i hi hik)
  subst hik
  have hname : (allActions.get ⟨i, hi⟩).name = a := by
    have := hp
    simp only [beq_iff_eq] at this
    exact this
  refine ⟨by rw [hact, hname], ?_⟩
  intro j hj
  have hcap := hfirst j hj
  simp only [beq_eq_false_iff_ne, ne_eq] at hcap
  rw [hname]
  exact hcap

/-- Witness for C5 at the claim's concrete scenario: configuration
`[{name: "A"}, {name: "A"}]` and callback action `A` resolve to index 0 —
its slot carries the record and the dispatch matched the first duplicate. -/
theorem dispatch_first_match_policy_witness :
    webhook [{ name := "A" }, { name := "A" }] { action := some "A" } =
      .ok { webhookResponse := "OK"
            workflowData :=
              [[{ json := { action := some "A" }, pairedItem := some 0 }], []] } ∧
    CallbackBody.action { action := some "A" } =
      some (([{ name := "A" }, { name := "A" }] :
        List ActionRecord).get ⟨0, by decide⟩).name := by
  have h := dispatch_first_match_policy
    [{ name := "A" }, { name := "A" }] { action := some "A" }
    { webhookResponse := "OK"
      workflowData :=
        [[{ json := { action := some "A" }, pairedItem := some 0 }], []] }
    0 (by decide) rfl (by decide)
  exact ⟨rfl, h.1⟩

/-- Claim C6: `configuredOutputs` yields exactly one lane per configured
action, in input order (an empty or absent configuration yields zero lanes),
each lane a main connection whose display name is the action's name when
non-empty and the positional fallback `Action {i}` otherwise. -/
theorem configuredOutputs_lanes (parameters : INodeParameters) :
    (configuredOutputs parameters).length = (parameters.actions.getD []).length ∧
    ∀ i (hi : i < (parameters.actions.getD []).length),
      (configuredOutputs parameters).getD i
          { type := NodeConnectionType.Main, displayName := "" } =
        { type := NodeConnectionType.Main
          displayName :=
            if ((parameters.actions.getD []).get ⟨i, hi⟩).name = ""
            then "Action " ++ toString i
            else ((parameters.actions.getD []).get ⟨i, hi⟩).name } := by
  constructor
  · simp [configuredOutputs]
  · intro i hi
    have hlen : i < (configuredOutputs parameters).length := by
      simpa [configuredOutputs] using hi
    rw [List.getD_eq_getElem _ _ hlen]
    simp [configuredOutputs, List.getElem_mapIdx]

/-- Witness for C6: two configured actions, the second with an empty name,
yield two lanes whose second display name is the positional fallback. -/
theorem configuredOutputs_lanes_witness :
    (configuredOutputs
        { actions := some [{ name := "Approve" }, { name := "" }] }).length = 2 ∧
    (configuredOutputs
        { actions := some [{ name := "Approve" }, { name := "" }] }).getD 1
        { type := NodeConnectionType.Main, displayName := "" } =
      { type := NodeConnectionType.Main, displayName := "Action 1" } := by
  obtain ⟨h1, h2⟩ :=
    configuredOutputs_lanes { actions := some [{ name := "Approve" }, { name := "" }] }
  refine ⟨by simpa using h1, ?_⟩
  have := h2 1 (by decide)
  simpa using this

/-- Claim C7: `configuredOutputs` is deterministic — two invocations on the
same configuration produce identical lane sequences. -/
theorem configuredOutputs_deterministic (p q : INodeParameters) (h : p = q) :
    configuredOutputs p = configuredOutputs q := by
  rw [h]

/-- Witness for C7 at a concrete configuration. -/
theorem configuredOutputs_deterministic_witness :
    ({ actions := some [{ name := "Approve" }, { name := "Decline" }] } :
        INodeParameters) =
      { actions := some [{ name := "Approve" }, { name := "Decline" }] } ∧
    configuredOutputs
        { actions := some [{ name := "Approve" }, { name := "Decline" }] } =
      configuredOutputs
        { actions := some [{ name := "Approve" }, { name := "Decline" }] } :=
  ⟨rfl, configuredOutputs_deterministic _ _ rfl⟩

/-- Claim C8: the approval request built on run start addresses its callback
at the resumable base address followed by `/` and the node's identifier, and
its `actions` field is the configured action list projected to name-only
records, in declaration order. -/
theorem execute_request_shape (subject message resumeUrl nodeId : String)
    (actions : List ActionRecord) :
    (buildRequestBody subject message resumeUrl nodeId actions).webhook_url =
      resumeUrl ++ "/" ++ nodeId ∧
    (buildRequestBody subject message resumeUrl nodeId actions).actions =
      actions.map (fun a => { name := a.name }) :=
  ⟨rfl, rfl⟩

/-- Claim C9: a callback whose `action` field is present but empty is treated
as missing (the check on line 153 is falsiness-based), and a configured
action with an empty name can never receive dispatched records. -/
theorem empty_action_treated_as_missing (allActions : List ActionRecord)
    (body : CallbackBody) :
    (body.action = some "" → webhook allActions body = .error .missingAction) ∧
    ∀ resp i (hi : i < allActions.length),
      webhook allActions body = .ok resp →
      (allActions.get ⟨i, hi⟩).name = "" →
      resp.workflowData.getD i [] = [] := by
  constructor
  · intro h
    unfold webhook
    rw [h]
    simp
  · intro resp i hi hok hempty
    obtain ⟨a, k, hact, hne, hidx, rfl⟩ :=
      (webhook_eq_ok_iff allActions body resp).mp hok
    obtain ⟨hk, hp, hfirst⟩ := findIdx?_some_spec _ _ _ hidx
    have hik : i ≠ k := by
      intro h
      subst h
      have : (allActions.get ⟨i, hi⟩).name = a := by
        simpa only [beq_iff_eq] using hp
      exact hne (hempty ▸ this.symm)
    exact workflowData_other allActions _ k i hi hik

/-- Witness for C9: an empty-string action against an empty-named
configuration fails with the missing-action error. -/
theorem empty_action_treated_as_missing_witness :
    webhook [{ name := "" }] { action := some "" } = .error .missingAction :=
  (empty_action_treated_as_missing [{ name := "" }] { action := some "" }).1 rfl

/-- Claim C10: the approval request's account identifier is the fixed
constant string, independent of configuration and input. -/
theorem account_uuid_is_constant (subject message resumeUrl nodeId : String)
    (actions : List ActionRecord) :
    (buildRequestBody subject message resumeUrl nodeId actions).account_uuid =
      "00000000-0000-4000-c025-000000000000" :=
  rfl

end WebhookPathChoice
